import Mathlib

/-!
# BranchWeaver story-graph engine — verification development

Shallow embedding of the story-graph core of `branchweaver_app.py`:
the `Choice`/`Node`/`Story` data model, the mutation operations
(`add_node`, `delete_node`, `duplicate_node`), the JSON codec
(`story_to_json`, `story_from_json`), the AI subgraph ingestion
(`apply_ai_nodes_to_story`) and the playback traversal logic of
`tab_playback`.

Python `dict`s (insertion-ordered, unique keys) are modelled as
association lists together with `dictGet` / `dictInsert` / `dictDelete`
mirroring `d[k]`, `d[k] = v` and `del d[k]`.  JSON documents are
modelled as a `Json` tree; `json.dumps` / `json.loads` are the standard
faithful JSON text codec, so the serialization claims are settled at the
document (parsed-value) level.  `str.strip()` is modelled by `pyStrip`
(dropping leading/trailing whitespace).  `uuid.uuid4()` in `_new_id()`
is modelled by passing the generated identifier explicitly; its
freshness is an assumption stated as a hypothesis where a claim needs
it.
-/

/-- A parsed JSON document (the value produced by `json.loads`). -/
inductive Json where
  | null : Json
  | bool (b : Bool) : Json
  | num (n : Int) : Json
  | str (s : String) : Json
  | arr (xs : List Json) : Json
  | obj (kvs : List (String × Json)) : Json

/-- Python exception kinds raised by the embedded code paths. -/
inductive PyErr where
  | keyError       : PyErr
  | attributeError : PyErr
  | typeError      : PyErr
  | valueError     : PyErr
  | indexError     : PyErr
deriving DecidableEq

/-- `d.get(k)` / `d[k]` lookup on an insertion-ordered dict. -/
def dictGet {α : Type} : List (String × α) → String → Option α
  | [], _ => none
  | (k', v) :: rest, k => if k' = k then some v else dictGet rest k

/-- `k in d` membership test on a dict. -/
def dictContains {α : Type} (d : List (String × α)) (k : String) : Bool :=
  (dictGet d k).isSome

/-- `d[k] = v` assignment: overwrite in place if the key exists, else append. -/
def dictInsert {α : Type} : List (String × α) → String → α → List (String × α)
  | [], k, v => [(k, v)]
  | (k', v') :: rest, k, v =>
      if k' = k then (k, v) :: rest else (k', v') :: dictInsert rest k v

/-- `del d[k]` removal of a key. -/
def dictDelete {α : Type} (d : List (String × α)) (k : String) : List (String × α) :=
  d.filter (fun kv => kv.1 ≠ k)

/-- In-place mutation of the value stored at a key (the Python code mutates
the `Node` object obtained from the dict, which is the dict's own entry). -/
def dictUpdate {α : Type} (d : List (String × α)) (k : String) (f : α → α) :
    List (String × α) :=
  d.map (fun kv => if kv.1 = k then (kv.1, f kv.2) else kv)

/-- `str.strip()`: drop leading and trailing whitespace. -/
def pyStrip (s : String) : String :=
  String.mk (((s.data.dropWhile Char.isWhitespace).reverse.dropWhile
    Char.isWhitespace).reverse)

/-- Python truthiness of a JSON-shaped value (`if x:` / `x or y`). -/
def pyTruthy : Json → Bool
  | .null => false
  | .bool b => b
  | .num n => n != 0
  | .str s => s ≠ ""
  | .arr xs => !xs.isEmpty
  | .obj kvs => !kvs.isEmpty

/-- `for x in v`: lists yield elements, strings yield one-character strings,
dicts yield their keys; other values raise `TypeError`. -/
def pyIter : Json → Except PyErr (List Json)
  | .arr xs => .ok xs
  | .str s => .ok (s.data.map (fun c => .str (String.mk [c])))
  | .obj kvs => .ok (kvs.map (fun kv => .str kv.1))
  | _ => .error .typeError

/-- A value on which a `str` method (such as `.strip()`) is invoked must be a
string; anything else raises `AttributeError`. -/
def asStr : Json → Except PyErr String
  | .str s => .ok s
  | _ => .error .attributeError

/-- A value on which a `dict` method (such as `.get()` or `.items()`) is
invoked must be a dict; anything else raises `AttributeError`. -/
def asObj : Json → Except PyErr (List (String × Json))
  | .obj kvs => .ok kvs
  | _ => .error .attributeError

/-- `kvs.get(k, d)` on a JSON object. -/
def jGetD (kvs : List (String × Json)) (k : String) (d : Json) : Json :=
  (dictGet kvs k).getD d

/-- Iterate a JSON value whose elements are then used as strings
(`t.strip()` inside a comprehension): non-string elements raise. -/
def pyIterStrs (j : Json) : Except PyErr (List String) :=
  match pyIter j with
  | .error e => .error e
  | .ok xs => xs.mapM asStr

/-! ## Data model (`Choice`, `Node`, `Story` dataclasses) -/

/-- The `Choice` dataclass. -/
structure Choice where
  text : String
  target_id : String
  tags : List String
  gate : String
deriving DecidableEq

/-- The `Node` dataclass. -/
structure Node where
  id : String
  title : String
  text : String
  npc : String
  location : String
  emotion : String
  tags : List String
  gm_notes : String
  choices : List Choice
deriving DecidableEq

/-- The `Story` dataclass; `nodes` is an insertion-ordered dict. -/
structure Story where
  title : String
  description : String
  nodes : List (String × Node)
  start_node_id : Option String
deriving DecidableEq

/-- The §3 invariant on a story: `start_node_id` is null exactly when the
story is empty, and otherwise names a key of `nodes`. -/
def storyWF (story : Story) : Bool :=
  match story.start_node_id with
  | none => story.nodes.isEmpty
  | some s => dictContains story.nodes s

/-! ## Graph mutation service -/

/-- `add_node` (source lines 169–195).  `nid` is the identifier produced by
`_new_id()`, made explicit here.  `if not story.start_node_id:` is Python
truthiness: both `None` and the empty string count as "no start node". -/
def add_node (nid : String) (story : Story) (title text npc location emotion : String)
    (tags : Option (List String)) (gm_notes : String) : Story × String :=
  let node : Node :=
    { id := nid
      title := if pyStrip title = "" then "(untitled)" else pyStrip title
      text := pyStrip text
      npc := pyStrip npc
      location := pyStrip location
      emotion := pyStrip emotion
      tags := ((tags.getD []).map pyStrip).filter (fun t => t ≠ "")
      gm_notes := pyStrip gm_notes
      choices := [] }
  let story := { story with nodes := dictInsert story.nodes nid node }
  let story :=
    if story.start_node_id = none ∨ story.start_node_id = some "" then
      { story with start_node_id := some nid }
    else story
  (story, nid)

/-- The per-node body of `delete_node`'s first loop (source line 201):
`n.choices = [c for c in n.choices if c.target_id != node_id]`. -/
def dropChoicesTo (node_id : String) (n : Node) : Node :=
  { n with choices := n.choices.filter (fun c => c.target_id ≠ node_id) }

/-- `delete_node` (source lines 198–204): drop inbound choices, remove the
node, repair `start_node_id` to the first remaining key (`next(iter(...))`)
or `None`; no-op when the id is absent. -/
def delete_node (story : Story) (node_id : String) : Story :=
  if dictContains story.nodes node_id then
    let nodes1 := story.nodes.map (fun kn => (kn.1, dropChoicesTo node_id kn.2))
    let nodes2 := dictDelete nodes1 node_id
    let start :=
      if story.start_node_id = some node_id then nodes2.head?.map Prod.fst
      else story.start_node_id
    { story with nodes := nodes2, start_node_id := start }
  else story

/-- `duplicate_node` (source lines 207–225).  `new_id` is the `_new_id()`
result made explicit.  `story.nodes[node_id]` raises `KeyError` when the
source id is absent (the spec's `NotFound`). -/
def duplicate_node (new_id : String) (story : Story) (node_id : String) :
    Except PyErr (Story × String) :=
  match dictGet story.nodes node_id with
  | none => .error .keyError
  | some n =>
    let new_node : Node :=
      { id := new_id
        title := n.title ++ " (copy)"
        text := n.text
        npc := n.npc
        location := n.location
        emotion := n.emotion
        tags := n.tags
        gm_notes := n.gm_notes
        choices := n.choices.map (fun c =>
          { text := c.text, target_id := c.target_id, tags := c.tags, gate := c.gate }) }
    .ok ({ story with nodes := dictInsert story.nodes new_id new_node }, new_id)

example :
    (add_node "b" ⟨"T", "", [], none⟩ "  Throne " "x" "" "" "" (some [" a ", " "]) "").1
      = ⟨"T", "", [("b", ⟨"b", "Throne", "x", "", "", "", ["a"], "", []⟩)], some "b"⟩ := by
  decide

/-! ## Serialization codec

`story_to_json` (source lines 231–274): `_encode` on the `Story` dataclass
takes the `is_dataclass` branch first and recurses on `asdict(story)`, so the
emitted document is the nested dict produced by `asdict` — one key per
dataclass field, in field declaration order.  The `json.dumps` text layer is
the standard JSON codec and is left implicit: encoding is modelled as the
document tree handed to `json.dumps`. -/

/-- `Option[str]` rendered into the document (`None` ↦ `null`). -/
def optStr : Option String → Json
  | none => .null
  | some s => .str s

/-- The document `asdict`/`_encode` produces for a `Choice`. -/
def choice_to_json (c : Choice) : Json :=
  .obj [("text", .str c.text), ("target_id", .str c.target_id),
        ("tags", .arr (c.tags.map Json.str)), ("gate", .str c.gate)]

/-- The document `asdict`/`_encode` produces for a `Node`. -/
def node_to_json (n : Node) : Json :=
  .obj [("id", .str n.id), ("title", .str n.title), ("text", .str n.text),
        ("npc", .str n.npc), ("location", .str n.location),
        ("emotion", .str n.emotion), ("tags", .arr (n.tags.map Json.str)),
        ("gm_notes", .str n.gm_notes),
        ("choices", .arr (n.choices.map choice_to_json))]

/-- `story_to_json`: the full encoded document.  Total — the encoder never
raises (its final fallback stringifies anything unrecognised). -/
def story_to_json (story : Story) : Json :=
  .obj [("title", .str story.title), ("description", .str story.description),
        ("nodes", .obj (story.nodes.map (fun kn => (kn.1, node_to_json kn.2)))),
        ("start_node_id", optStr story.start_node_id)]

/-! `story_from_json` (source lines 283–316) builds `Choice`/`Node`/`Story`
dataclass instances whose fields receive the raw values fetched from the
document (Python performs no type check on dataclass construction), so the
decoded story is modelled with dynamically-typed fields: `DChoice`,
`DNode`, `DStory` mirror the dataclasses with `Json`-valued leaves.  A
well-typed `Story` embeds into this dynamic form through `injStory`. -/

/-- A decoded `Choice` with raw document values in its fields. -/
structure DChoice where
  text : Json
  target_id : Json
  tags : Json
  gate : Json

/-- A decoded `Node` with raw document values in its fields. -/
structure DNode where
  id : Json
  title : Json
  text : Json
  npc : Json
  location : Json
  emotion : Json
  tags : Json
  gm_notes : Json
  choices : List DChoice

/-- A decoded `Story`. -/
structure DStory where
  title : Json
  description : Json
  nodes : List (String × DNode)
  start_node_id : Json

/-- The dynamic image of a well-typed `Choice`. -/
def injChoice (c : Choice) : DChoice :=
  ⟨.str c.text, .str c.target_id, .arr (c.tags.map Json.str), .str c.gate⟩

/-- The dynamic image of a well-typed `Node`. -/
def injNode (n : Node) : DNode :=
  ⟨.str n.id, .str n.title, .str n.text, .str n.npc, .str n.location,
   .str n.emotion, .arr (n.tags.map Json.str), .str n.gm_notes,
   n.choices.map injChoice⟩

/-- The dynamic image of a well-typed `Story`. -/
def injStory (S : Story) : DStory :=
  ⟨.str S.title, .str S.description,
   S.nodes.map (fun kn => (kn.1, injNode kn.2)), optStr S.start_node_id⟩

/-- Decoding one choice entry (`Choice(text=c.get("text",""), ...)`). -/
def choice_from_json (ckvs : List (String × Json)) : DChoice :=
  ⟨jGetD ckvs "text" (.str ""), jGetD ckvs "target_id" (.str ""),
   jGetD ckvs "tags" (.arr []), jGetD ckvs "gate" (.str "")⟩

/-- Decoding one node entry: missing fields get the documented defaults
(`nid` — the dict key — for a missing `id`, `"(untitled)"` for a missing
title, empty string / empty list otherwise); choice entries that are not
dicts are skipped (`if not isinstance(c, dict): continue`). -/
def node_from_json (nid : String) (nd : Json) : Except PyErr DNode :=
  match nd with
  | .obj kvs =>
    match pyIter (jGetD kvs "choices" (.arr [])) with
    | .error e => .error e
    | .ok items =>
      .ok { id := jGetD kvs "id" (.str nid)
            title := jGetD kvs "title" (.str "(untitled)")
            text := jGetD kvs "text" (.str "")
            npc := jGetD kvs "npc" (.str "")
            location := jGetD kvs "location" (.str "")
            emotion := jGetD kvs "emotion" (.str "")
            tags := jGetD kvs "tags" (.arr [])
            gm_notes := jGetD kvs "gm_notes" (.str "")
            choices := items.filterMap (fun c =>
              match c with
              | .obj ckvs => some (choice_from_json ckvs)
              | _ => none) }
  | _ => .error .attributeError

/-- The decoder's `nodes[nid] = Node(...)` accumulation loop. -/
def decodeNodes : List (String × Json) → List (String × DNode) →
    Except PyErr (List (String × DNode))
  | [], acc => .ok acc
  | (nid, nd) :: rest, acc =>
    match node_from_json nid nd with
    | .error e => .error e
    | .ok dn => decodeNodes rest (dictInsert acc nid dn)

/-- `story_from_json`: decode a parsed document.  The top level must be a
dict and `data["nodes"]`, when present, must itself be a dict (otherwise
`.get`/`.items()` raise `AttributeError`); everything below that is
tolerated with defaults. -/
def story_from_json (data : Json) : Except PyErr DStory :=
  match asObj data with
  | .error e => .error e
  | .ok dkvs =>
    match jGetD dkvs "nodes" (.obj []) with
    | .obj nkvs =>
      match decodeNodes nkvs [] with
      | .error e => .error e
      | .ok nodes =>
        .ok { title := jGetD dkvs "title" (.str "Untitled Story")
              description := jGetD dkvs "description" (.str "")
              nodes := nodes
              start_node_id := jGetD dkvs "start_node_id" .null }
    | _ => .error .attributeError

example :
    story_from_json (.obj [("nodes", .obj [("x", .obj [("title", .str "T")])])])
      = .ok ⟨.str "Untitled Story", .str "",
             [("x", ⟨.str "x", .str "T", .str "", .str "", .str "", .str "",
                     .arr [], .str "", []⟩)], .null⟩ := rfl

example :
    story_from_json (story_to_json ⟨"T", "d",
        [("a", ⟨"a", "A", "x", "", "", "", ["t"], "", [⟨"go", "b", [], "g"⟩]⟩)], some "a"⟩)
      = .ok (injStory ⟨"T", "d",
        [("a", ⟨"a", "A", "x", "", "", "", ["t"], "", [⟨"go", "b", [], "g"⟩]⟩)], some "a"⟩) := rfl

/-! ## Subgraph ingestion (`apply_ai_nodes_to_story`, source lines 419–514)

The AI payload carries dynamically-typed JSON; scalar fields on which the
source invokes `str` methods (titles, and every field fed through
`add_node`'s `.strip()` calls) must be strings and raise otherwise.  The
choice fields `text`/`gate`/`tags` are read through the same string model,
matching the §6 ingestion contract (the source would store a non-string
payload unchecked there; no claim exercises that case).  The `_new_id()`
results of the first pass are modelled by the supply `supply : Nat → String`,
the `i`-th created node receiving `supply i`. -/

/-- First-pass handling of one proto-node: extract the fields, default and
normalise the title (`nd.get("title", "Untitled").strip() or "Untitled"`),
then `add_node`.  Returns the new story, the normalised title and the new
id. -/
def createOne (story : Story) (nid : String) (nd : Json) :
    Except PyErr (Story × String × String) :=
  match asObj nd with
  | .error e => .error e
  | .ok kvs =>
    match asStr (jGetD kvs "title" (.str "Untitled")) with
    | .error e => .error e
    | .ok titleRaw =>
      let title := if pyStrip titleRaw = "" then "Untitled" else pyStrip titleRaw
      match asStr (jGetD kvs "text" (.str "")) with
      | .error e => .error e
      | .ok text =>
        match asStr (jGetD kvs "npc" (.str "")) with
        | .error e => .error e
        | .ok npc =>
          match asStr (jGetD kvs "location" (.str "")) with
          | .error e => .error e
          | .ok location =>
            match asStr (jGetD kvs "emotion" (.str "")) with
            | .error e => .error e
            | .ok emotion =>
              let tagsJ := jGetD kvs "tags" (.arr [])
              let tagsJ := if pyTruthy tagsJ then tagsJ else .arr []
              match pyIterStrs tagsJ with
              | .error e => .error e
              | .ok tags =>
                match asStr (jGetD kvs "gm_notes" (.str "")) with
                | .error e => .error e
                | .ok gm =>
                  let r := add_node nid story title text npc location emotion (some tags) gm
                  .ok (r.1, title, r.2)

/-- The first pass: create every proto-node, recording
`title_to_id[title] = nid` (later duplicates of a title overwrite). -/
def firstPass (supply : Nat → String) :
    List Json → Story → List (String × String) → Nat →
    Except PyErr (Story × List (String × String))
  | [], story, t2i, _ => .ok (story, t2i)
  | nd :: rest, story, t2i, i =>
    match createOne story (supply i) nd with
    | .error e => .error e
    | .ok r => firstPass supply rest r.1 (dictInsert t2i r.2.1 r.2.2) (i + 1)

/-- Decoding one choice definition of the second pass; `target_title` is
resolved through the title map with the empty sentinel on a miss
(`title_to_id.get(tgt_title, "")`). -/
def ingestChoice (t2i : List (String × String)) (ch : Json) : Except PyErr Choice :=
  match asObj ch with
  | .error e => .error e
  | .ok ckvs =>
    match asStr (jGetD ckvs "text" (.str "")) with
    | .error e => .error e
    | .ok c_text =>
      match asStr (jGetD ckvs "gate" (.str "")) with
      | .error e => .error e
      | .ok gate =>
        let tagsJ := jGetD ckvs "tags" (.arr [])
        let tagsJ := if pyTruthy tagsJ then tagsJ else .arr []
        match pyIterStrs tagsJ with
        | .error e => .error e
        | .ok c_tags =>
          let tgtJ := jGetD ckvs "target_title" .null
          match (if pyTruthy tgtJ then asStr tgtJ else .ok "") with
          | .error e => .error e
          | .ok tgtRaw =>
            let tgt_title := pyStrip tgtRaw
            .ok { text := c_text, target_id := (dictGet t2i tgt_title).getD "",
                  tags := c_tags, gate := gate }

/-- Second-pass handling of one proto-node: re-read its title with an
empty-string default (`nd.get("title", "").strip()`), skip the proto-node
when the map has no entry for it (`if not nid: continue`), otherwise append
its decoded choices to the created node. -/
def wireOne (story : Story) (t2i : List (String × String)) (nd : Json) :
    Except PyErr Story :=
  match asObj nd with
  | .error e => .error e
  | .ok kvs =>
    match asStr (jGetD kvs "title" (.str "")) with
    | .error e => .error e
    | .ok titleRaw =>
      match dictGet t2i (pyStrip titleRaw) with
      | none => .ok story
      | some nid =>
        if nid = "" then .ok story
        else
          match dictGet story.nodes nid with
          | none => .error .keyError
          | some _ =>
            let chJ := jGetD kvs "choices" (.arr [])
            let chJ := if pyTruthy chJ then chJ else .arr []
            match pyIter chJ with
            | .error e => .error e
            | .ok chDefs =>
              match chDefs.mapM (ingestChoice t2i) with
              | .error e => .error e
              | .ok choices =>
                let nodes' := dictUpdate story.nodes nid
                  (fun n => { n with choices := n.choices ++ choices })
                .ok { story with nodes := nodes' }

/-- The second pass over the whole batch. -/
def secondPass : List Json → Story → List (String × String) → Except PyErr Story
  | [], story, _ => .ok story
  | nd :: rest, story, t2i =>
    match wireOne story t2i nd with
    | .error e => .error e
    | .ok story' => secondPass rest story' t2i

/-- `apply_ai_nodes_to_story`: validate the batch
(`raise ValueError` unless `data["nodes"]` is a non-empty list), run both
passes, compute `new_ids = list(title_to_id.values())`, optionally attach
the first new node to an existing parent, and return the ids. -/
def apply_ai_nodes_to_story (story : Story) (data : Json) (supply : Nat → String)
    (attach_parent_id : Option String) (attach_choice_text : Option String) :
    Except PyErr (Story × List String) :=
  match asObj data with
  | .error e => .error e
  | .ok dk =>
    match jGetD dk "nodes" (.arr []) with
    | .arr nds =>
      if nds.isEmpty then .error .valueError
      else
        match firstPass supply nds story [] 0 with
        | .error e => .error e
        | .ok (story1, t2i) =>
          match secondPass nds story1 t2i with
          | .error e => .error e
          | .ok story2 =>
            let new_ids := t2i.map Prod.snd
            let story3 :=
              match attach_parent_id, attach_choice_text, new_ids with
              | some pid, some ctext, fid :: _ =>
                -- `if attach_parent_id and attach_choice_text and new_ids:`
                if pid = "" ∨ ctext = "" then story2
                else
                  match dictGet story2.nodes pid with
                  | some _ =>
                    let att : Choice := { text := ctext, target_id := fid, tags := [], gate := "" }
                    let nodes' := dictUpdate story2.nodes pid
                      (fun n => { n with choices := n.choices ++ [att] })
                    { story2 with nodes := nodes' }
                  | none => story2
              | _, _, _ => story2
            .ok (story3, new_ids)
    | _ => .error .valueError

/-- The normalised title the first pass computes for a proto-node, when its
extraction succeeds. -/
def protoTitle (nd : Json) : Option String :=
  match nd with
  | .obj kvs =>
    match jGetD kvs "title" (.str "Untitled") with
    | .str s => some (if pyStrip s = "" then "Untitled" else pyStrip s)
    | _ => none
  | _ => none

/-- The proto-node list of an ingestion payload, when it is a list. -/
def jsonNodesList (data : Json) : Option (List Json) :=
  match data with
  | .obj dk =>
    match jGetD dk "nodes" (.arr []) with
    | .arr xs => some xs
    | _ => none
  | _ => none

/-- The title-to-id map the first pass builds, as a pure fold over the
normalised titles (` i`-th title receiving `supply i`). -/
def ingestTitleMap (supply : Nat → String) :
    List String → Nat → List (String × String) → List (String × String)
  | [], _, m => m
  | t :: ts, i, m => ingestTitleMap supply ts (i + 1) (dictInsert m t (supply i))

/-- `[supply i, supply (i+1), ..., supply (i+n-1)]`: the ids minted for `n`
consecutive creations starting at index `i`. -/
def supplySeg (supply : Nat → String) : Nat → Nat → List String
  | _, 0 => []
  | i, n + 1 => supply i :: supplySeg supply (i + 1) n

/-! ## Playback (`tab_playback`, source lines 1190–1413) -/

/-- The playback slice of the `st.session_state.ui` dict:
`playback_node_id` and `playback_history`. -/
structure Playback where
  playback_node_id : Option String
  playback_history : List String
deriving DecidableEq

/-- The §4.5 `Choose` transition (source lines 1384–1395): the button for
choice `i` of the current node sets `playback_node_id = ch.target_id` and
appends `ch.target_id` to the history — whether or not the target id exists
in the story.  Out-of-range indices have no button, the spec's
`IndexOutOfRange`; a missing current node renders no buttons at all
(guarded at line 1233), modelled as `KeyError`. -/
def choose (story : Story) (ps : Playback) (i : Nat) : Except PyErr Playback :=
  match ps.playback_node_id with
  | none => .error .keyError
  | some curr =>
    match dictGet story.nodes curr with
    | none => .error .keyError
    | some n =>
      match n.choices[i]? with
      | none => .error .indexError
      | some ch =>
        .ok { playback_node_id := some ch.target_id
              playback_history := ps.playback_history ++ [ch.target_id] }

/-- The §4.5 `StepBack` transition (source lines 1217–1223): pop the last
history entry and move to the new last one; no-op when the history has at
most one entry. -/
def stepBack (ps : Playback) : Playback :=
  if 1 < ps.playback_history.length then
    let h := ps.playback_history.dropLast
    { playback_node_id := h.getLast?, playback_history := h }
  else ps

/-- A sequence of `Choose` transitions. -/
def chooseMany (story : Story) : Playback → List Nat → Except PyErr Playback
  | ps, [] => .ok ps
  | ps, i :: rest =>
    match choose story ps i with
    | .error e => .error e
    | .ok ps' => chooseMany story ps' rest

/-- `k` successive `StepBack` transitions. -/
def stepBackMany : Nat → Playback → Playback
  | 0, ps => ps
  | k + 1, ps => stepBackMany k (stepBack ps)

/-- The validation prefix of `tab_playback` (source lines 1193–1235), run on
every render before any transition: an empty story shows nothing
(`none`); an invalid `start_node_id` is repaired to the first node;
a falsy or missing current node is silently reset to the start node with
history `[start]`; finally the "Current node missing." warning check of
line 1233.  Returns the repaired story, the repaired playback state, and
whether the warning fired. -/
def playback_validate (story : Story) (ps : Playback) :
    Option (Story × Playback × Bool) :=
  match story.nodes with
  | [] => none
  | (k0, _) :: _ =>
    let ids := story.nodes.map Prod.fst
    let startOk := match story.start_node_id with
      | some s => ids.contains s
      | none => false
    let story1 := if startOk then story else { story with start_node_id := some k0 }
    let start_id := if startOk then story.start_node_id.getD k0 else k0
    let ps1 := match ps.playback_node_id with
      | none => { playback_node_id := some start_id, playback_history := [start_id] }
      | some c =>
        if c = "" ∨ (dictGet story1.nodes c).isNone then
          { playback_node_id := some start_id, playback_history := [start_id] }
        else ps
    let warn := match ps1.playback_node_id with
      | some c => (dictGet story1.nodes c).isNone
      | none => true
    some (story1, ps1, warn)

example :
    apply_ai_nodes_to_story ⟨"Untitled Story", "", [], none⟩
      (.obj [("nodes", .arr [.obj [("title", .str "A")], .obj [("title", .str "A")]])])
      (fun i => if i = 0 then "id1" else "id2") none none
    = .ok (⟨"Untitled Story", "",
        [("id1", ⟨"id1", "A", "", "", "", "", [], "", []⟩),
         ("id2", ⟨"id2", "A", "", "", "", "", [], "", []⟩)], some "id1"⟩,
        ["id2"]) := rfl

/-! ## Dictionary lemmas -/

theorem dictGet_insert_self {α : Type} (d : List (String × α)) (k : String) (v : α) :
    dictGet (dictInsert d k v) k = some v := by
  induction d with
  | nil => simp [dictGet, dictInsert]
  | cons kv rest ih =>
    by_cases h : kv.1 = k
    · simp [dictInsert, dictGet, h]
    · simp [dictInsert, dictGet, h, ih]

theorem dictGet_insert_ne {α : Type} (d : List (String × α)) (k k' : String) (v : α)
    (h : k' ≠ k) : dictGet (dictInsert d k v) k' = dictGet d k' := by
  induction d with
  | nil => simp [dictGet, dictInsert, Ne.symm h]
  | cons kv rest ih =>
    by_cases hk : kv.1 = k
    · subst hk
      simp [dictInsert, dictGet, Ne.symm h]
    · simp [dictInsert, dictGet, hk, ih]

theorem dictInsert_of_get_none {α : Type} (d : List (String × α)) (k : String) (v : α)
    (h : dictGet d k = none) : dictInsert d k v = d ++ [(k, v)] := by
  induction d with
  | nil => simp [dictInsert]
  | cons kv rest ih =>
    by_cases hk : kv.1 = k
    · simp [dictGet, hk] at h
    · simp [dictGet, hk] at h
      simp [dictInsert, hk, ih h]

theorem dictGet_append {α : Type} (d₁ d₂ : List (String × α)) (k : String) :
    dictGet (d₁ ++ d₂) k =
      match dictGet d₁ k with
      | some v => some v
      | none => dictGet d₂ k := by
  induction d₁ with
  | nil => simp [dictGet]
  | cons kv rest ih =>
    by_cases hk : kv.1 = k <;> simp [dictGet, hk, ih]

theorem dictGet_none_iff {α : Type} (d : List (String × α)) (k : String) :
    dictGet d k = none ↔ ∀ kv ∈ d, kv.1 ≠ k := by
  induction d with
  | nil => simp [dictGet]
  | cons kv rest ih =>
    by_cases hk : kv.1 = k <;> simp [dictGet, hk, ih]

theorem dictGet_isSome_of_mem_key {α : Type} (d : List (String × α)) (kv : String × α)
    (h : kv ∈ d) : (dictGet d kv.1).isSome := by
  induction d with
  | nil => simp at h
  | cons kv' rest ih =>
    rcases List.mem_cons.mp h with he | hm
    · subst he; simp [dictGet]
    · by_cases hk : kv'.1 = kv.1
      · simp [dictGet, hk]
      · simpa [dictGet, hk] using ih hm

theorem dictGet_delete_ne {α : Type} (d : List (String × α)) (k k' : String)
    (h : k' ≠ k) : dictGet (dictDelete d k) k' = dictGet d k' := by
  induction d with
  | nil => rfl
  | cons kv rest ih =>
    by_cases hk : kv.1 = k
    · simpa [dictDelete, List.filter_cons, hk, dictGet, Ne.symm h] using ih
    · by_cases hk' : kv.1 = k'
      · simp [dictDelete, List.filter_cons, hk, dictGet, hk', h]
      · simpa [dictDelete, List.filter_cons, hk, dictGet, hk'] using ih

theorem dictGet_map_update {α : Type} (d : List (String × α)) (f : String → α → α)
    (k : String) :
    dictGet (d.map (fun kv => (kv.1, f kv.1 kv.2))) k = (dictGet d k).map (f k) := by
  induction d with
  | nil => rfl
  | cons kv rest ih =>
    by_cases hk : kv.1 = k
    · simp [dictGet, hk]
    · simp [dictGet, hk, ih]

/-! ## Round-trip lemmas for the codec -/

theorem choice_roundtrip (c : Choice) :
    (match choice_to_json c with
     | .obj ckvs => some (choice_from_json ckvs)
     | _ => none) = some (injChoice c) := rfl

theorem choices_decode_map (l : List Choice) :
    l.filterMap (fun c =>
        match choice_to_json c with
        | .obj ckvs => some (choice_from_json ckvs)
        | _ => none) = l.map injChoice := by
  induction l with
  | nil => rfl
  | cons c rest ih =>
    simp only [List.map_cons, List.filterMap_cons]
    rw [show (match choice_to_json c with
        | .obj ckvs => some (choice_from_json ckvs)
        | _ => none) = some (injChoice c) from rfl]
    simp [ih]

theorem node_roundtrip (nid : String) (n : Node) :
    node_from_json nid (node_to_json n) = .ok (injNode n) := by
  simp [node_from_json, node_to_json, jGetD, dictGet, pyIter, injNode,
    Function.comp_def, choices_decode_map]

theorem decodeNodes_roundtrip (l : List (String × Node)) (acc : List (String × DNode))
    (hdisj : ∀ kn ∈ l, dictGet acc kn.1 = none)
    (hnodup : (l.map Prod.fst).Nodup) :
    decodeNodes (l.map (fun kn => (kn.1, node_to_json kn.2))) acc
      = .ok (acc ++ l.map (fun kn => (kn.1, injNode kn.2))) := by
  induction l generalizing acc with
  | nil => simp [decodeNodes]
  | cons kn rest ih =>
    simp only [List.map_cons, decodeNodes, node_roundtrip]
    have hd : dictGet acc kn.1 = none := hdisj kn (by simp)
    rw [dictInsert_of_get_none acc kn.1 (injNode kn.2) hd]
    have hnd := hnodup
    simp only [List.map_cons, List.nodup_cons] at hnd
    rw [ih]
    · simp
    · intro kn' hm
      rw [dictGet_append]
      rw [hdisj kn' (by simp [hm])]
      have hne : kn'.1 ≠ kn.1 := by
        intro he
        exact hnd.1 (he ▸ List.mem_map_of_mem Prod.fst hm)
      simp [dictGet, Ne.symm hne]
    · exact hnd.2

/-! ## Claim C1 — round-trip idempotence of the codec -/

/-- C1: for every story whose node dict has (as every Python dict has)
pairwise-distinct keys, decoding the document produced by encoding yields a
story structurally equal to the original: same title, description and
start id, and for every node id the same node fields and ordered choice
list (the decoded dynamic story is exactly the image `injStory S` of `S`).
Encoding itself is the total function `story_to_json` — it never raises on
any `Story` value, hence on any value the mutation service produces.  The
"no malformed choices" proviso of the claim is automatic here: every
`Choice` of a `Story` is a well-formed record. -/
theorem encode_decode_roundtrip (S : Story) (h : (S.nodes.map Prod.fst).Nodup) :
    story_from_json (story_to_json S) = .ok (injStory S) := by
  have hnodes : decodeNodes (S.nodes.map (fun kn => (kn.1, node_to_json kn.2))) []
      = .ok (S.nodes.map (fun kn => (kn.1, injNode kn.2))) := by
    simpa using decodeNodes_roundtrip S.nodes [] (by intros; rfl) h
  simp [story_from_json, story_to_json, asObj, jGetD, dictGet, hnodes, injStory]

/-- A concrete story exercising every field of the codec. -/
def c1Story : Story :=
  ⟨"T", "d",
   [("a", ⟨"a", "A", "x", "n", "l", "e", ["t", "u"], "g", [⟨"go", "b", ["ct"], "dc"⟩]⟩),
    ("b", ⟨"b", "B", "y", "", "", "", [], "", []⟩)],
   some "a"⟩

/-- Witness for C1 at a concrete two-node story with a wired choice. -/
theorem encode_decode_roundtrip_witness :
    (c1Story.nodes.map Prod.fst).Nodup ∧
      story_from_json (story_to_json c1Story) = .ok (injStory c1Story) :=
  ⟨by decide, encode_decode_roundtrip c1Story (by decide)⟩

/-! ## Claim C2 — referential integrity of DeleteNode -/

/-- A story whose start id is the first key of its node dict satisfies the
§3 invariant. -/
theorem storyWF_head (t d : String) (l : List (String × Node)) :
    storyWF ⟨t, d, l, l.head?.map Prod.fst⟩ = true := by
  cases l with
  | nil => simp [storyWF]
  | cons kv rest => simp [storyWF, dictContains, dictGet]

/-- Dropping inbound choices and deleting key `k` preserves membership of
every other key. -/
theorem dictContains_delete_map (d : List (String × Node)) (k s : String)
    (h : s ≠ k) :
    dictContains (dictDelete (d.map (fun kn =>
      (kn.1, dropChoicesTo k kn.2))) k) s = dictContains d s := by
  rw [dictContains, dictGet_delete_ne _ _ _ h]
  rw [dictGet_map_update d (fun _ n => dropChoicesTo k n) s]
  simp [dictContains]

/-- C2: deleting a node id that is present in a well-formed story (the §3
invariant `storyWF`: a null start id exactly on the empty story, otherwise a
start id that is a key of `nodes`) leaves (1) no choice anywhere whose
`target_id` is the deleted id, (2) the invariant intact — the new start id
is null exactly when the story became empty and otherwise is a key of
`nodes` — and (3) when the deleted node was the start node, the new start is
the first remaining node in iteration order (`next(iter(nodes))`). -/
theorem delete_node_integrity (story : Story) (node_id : String)
    (hpresent : dictContains story.nodes node_id = true)
    (hwf : storyWF story = true) :
    (∀ kn ∈ (delete_node story node_id).nodes, ∀ c ∈ kn.2.choices,
        c.target_id ≠ node_id)
    ∧ storyWF (delete_node story node_id) = true
    ∧ (story.start_node_id = some node_id →
        (delete_node story node_id).start_node_id
          = (delete_node story node_id).nodes.head?.map Prod.fst) := by
  refine ⟨?_, ?_, ?_⟩
  · intro kn hkn c hc
    simp only [delete_node, hpresent, if_true, dictDelete] at hkn
    obtain ⟨hkn1, -⟩ := List.mem_filter.mp hkn
    obtain ⟨kn0, hkn0, rfl⟩ := List.mem_map.mp hkn1
    simp only [dropChoicesTo] at hc
    obtain ⟨-, hdec⟩ := List.mem_filter.mp hc
    exact of_decide_eq_true hdec
  · cases hstart : story.start_node_id with
    | none =>
      rw [storyWF, hstart] at hwf
      simp only [List.isEmpty_iff] at hwf
      rw [dictContains, hwf] at hpresent
      simp [dictGet] at hpresent
    | some s =>
      by_cases hs : s = node_id
      · subst hs
        simp only [delete_node, hpresent, if_true, hstart, if_pos rfl]
        exact storyWF_head _ _ _
      · rw [storyWF, hstart] at hwf
        simp only [delete_node, hpresent, if_true, storyWF, hstart,
          Option.some.injEq, hs, if_false]
        rw [dictContains_delete_map story.nodes node_id s hs]
        exact hwf
  · intro hstart
    simp [delete_node, hpresent, hstart]

/-- Witness for C2: the spec's scenario — story with nodes A (start) and B,
A's only choice targets B; deleting B empties A's choice list and leaves A
as start. -/
def c2Story : Story :=
  ⟨"S", "",
   [("A", ⟨"A", "Alpha", "", "", "", "", [], "", [⟨"to B", "B", [], ""⟩]⟩),
    ("B", ⟨"B", "Beta", "", "", "", "", [], "", []⟩)],
   some "A"⟩

/-- Witness for C2 at the A/B scenario (and the scenario's own outcome,
checked by evaluation). -/
theorem delete_node_integrity_witness :
    (dictContains c2Story.nodes "B" = true ∧ storyWF c2Story = true)
    ∧ delete_node c2Story "B"
        = ⟨"S", "", [("A", ⟨"A", "Alpha", "", "", "", "", [], "", []⟩)], some "A"⟩
    ∧ ((∀ kn ∈ (delete_node c2Story "B").nodes, ∀ c ∈ kn.2.choices,
          c.target_id ≠ "B")
       ∧ storyWF (delete_node c2Story "B") = true
       ∧ (c2Story.start_node_id = some "B" →
           (delete_node c2Story "B").start_node_id
             = (delete_node c2Story "B").nodes.head?.map Prod.fst)) :=
  ⟨⟨by decide, by decide⟩, by decide,
   delete_node_integrity c2Story "B" (by decide) (by decide)⟩

/-! ## Claim C3 — CreateNode behavior -/

/-- A story that *has* a `start_node_id` (the empty string, a value the
decoder can produce from `{"start_node_id": ""}`), used to refute the
"otherwise startNodeId is unchanged" part of C3. -/
def c3Story : Story :=
  ⟨"S", "", [("a", ⟨"a", "A", "", "", "", "", [], "", []⟩)], some ""⟩

/-- C3 counterexample: `add_node` checks `if not story.start_node_id:` —
Python truthiness — so a story whose `start_node_id` is the *empty string*
(not null) still gets its start reassigned to the new node: `startNodeId`
is not unchanged even though the story had one. -/
theorem add_node_start_not_unchanged :
    c3Story.start_node_id ≠ none
    ∧ (add_node "b" c3Story "X" "t" "" "" "" none "").1.start_node_id = some "b"
    ∧ (add_node "b" c3Story "X" "t" "" "" "" none "").1.start_node_id
        ≠ c3Story.start_node_id := by decide

/-- C3 (amended): `add_node` always succeeds and returns the freshly minted
id; every string field is stripped, a blank stripped title becomes
"(untitled)", tags are stripped with empties discarded, the node starts with
no choices and is appended to the node dict without touching other entries;
and the new node becomes the start node exactly when the story's
`start_node_id` was null **or the empty string** (Python falsiness) —
otherwise `start_node_id` is unchanged. -/
theorem add_node_spec (story : Story) (nid title text npc location emotion : String)
    (tags : Option (List String)) (gm_notes : String)
    (hfresh : dictContains story.nodes nid = false) :
    ∀ S' rid, add_node nid story title text npc location emotion tags gm_notes = (S', rid) →
      rid = nid
      ∧ S'.nodes = story.nodes ++
          [(nid, ⟨nid, if pyStrip title = "" then "(untitled)" else pyStrip title,
            pyStrip text, pyStrip npc, pyStrip location, pyStrip emotion,
            ((tags.getD []).map pyStrip).filter (fun t => t ≠ ""),
            pyStrip gm_notes, []⟩)]
      ∧ (∀ k, k ≠ nid → dictGet S'.nodes k = dictGet story.nodes k)
      ∧ ((story.start_node_id = none ∨ story.start_node_id = some "") →
          S'.start_node_id = some nid)
      ∧ (story.start_node_id ≠ none → story.start_node_id ≠ some "" →
          S'.start_node_id = story.start_node_id) := by
  have hnone : dictGet story.nodes nid = none := by
    cases hdg : dictGet story.nodes nid with
    | none => rfl
    | some v => rw [dictContains, hdg] at hfresh; simp at hfresh
  intro S' rid h
  by_cases hst : story.start_node_id = none ∨ story.start_node_id = some ""
  · simp only [add_node, if_pos hst, Prod.mk.injEq] at h
    obtain ⟨hS, hr⟩ := h
    subst hS; subst hr
    refine ⟨rfl, ?_, ?_, fun _ => rfl, ?_⟩
    · exact dictInsert_of_get_none _ _ _ hnone
    · intro k hk
      exact dictGet_insert_ne _ _ _ _ hk
    · intro h1 h2
      rcases hst with h | h
      · exact absurd h h1
      · exact absurd h h2
  · simp only [add_node, if_neg hst, Prod.mk.injEq] at h
    obtain ⟨hS, hr⟩ := h
    subst hS; subst hr
    refine ⟨rfl, ?_, ?_, ?_, fun _ _ => rfl⟩
    · exact dictInsert_of_get_none _ _ _ hnone
    · intro k hk
      exact dictGet_insert_ne _ _ _ _ hk
    · intro hcond
      exact absurd hcond hst

/-- Witness for C3 (amended) at the spec's scenario: `CreateNode` on the
empty story makes the new node the start node, and a second `CreateNode`
leaves the first id as start. -/
theorem add_node_spec_witness :
    (dictContains (⟨"S", "", [], none⟩ : Story).nodes "id1" = false)
    ∧ ((add_node "id2"
          (add_node "id1" ⟨"S", "", [], none⟩ "Throne" "text" "" "" "" none "").1
          "Second" "text2" "" "" "" none "").1.start_node_id = some "id1")
    ∧ ("id1" = "id1"
       ∧ (add_node "id1" ⟨"S", "", [], none⟩ "Throne" "text" "" "" "" none "").1.nodes
           = ([] : List (String × Node)) ++
             [("id1", ⟨"id1", "Throne", "text", "", "", "", [], "", []⟩)]
       ∧ (∀ k, k ≠ "id1" →
           dictGet (add_node "id1" ⟨"S", "", [], none⟩ "Throne" "text" "" "" "" none
             "").1.nodes k = dictGet (⟨"S", "", [], none⟩ : Story).nodes k)
       ∧ (((⟨"S", "", [], none⟩ : Story).start_node_id = none ∨
            (⟨"S", "", [], none⟩ : Story).start_node_id = some "") →
           (add_node "id1" ⟨"S", "", [], none⟩ "Throne" "text" "" "" "" none
             "").1.start_node_id = some "id1")
       ∧ ((⟨"S", "", [], none⟩ : Story).start_node_id ≠ none →
           (⟨"S", "", [], none⟩ : Story).start_node_id ≠ some "" →
           (add_node "id1" ⟨"S", "", [], none⟩ "Throne" "text" "" "" "" none
             "").1.start_node_id = (⟨"S", "", [], none⟩ : Story).start_node_id)) :=
  ⟨by decide, by decide,
   add_node_spec ⟨"S", "", [], none⟩ "id1" "Throne" "text" "" "" "" none ""
     (by decide) _ _ rfl⟩

/-! ## Claim C5 — DuplicateNode behavior -/

/-- C5: duplicating an absent source id raises `KeyError` (the spec's
`NotFound`); duplicating a present node with a fresh generated id appends a
new node whose id is the fresh id (hence differs from the source id and from
every existing key), whose title carries the " (copy)" suffix, whose choice
list has the same length and the same ordered `target_id`s as the source's
(pointing at the original targets, not at the duplicate), whose remaining
scalar fields and tag list equal the source's, and `start_node_id` is
untouched. -/
theorem duplicate_node_spec (story : Story) (node_id new_id : String) :
    (dictGet story.nodes node_id = none →
      duplicate_node new_id story node_id = .error .keyError)
    ∧ (∀ n, dictGet story.nodes node_id = some n →
        dictContains story.nodes new_id = false →
        ∃ m, duplicate_node new_id story node_id
              = .ok ({ story with nodes := story.nodes ++ [(new_id, m)] }, new_id)
          ∧ m.id = new_id
          ∧ new_id ≠ node_id
          ∧ (∀ kv ∈ story.nodes, kv.1 ≠ new_id)
          ∧ m.title = n.title ++ " (copy)"
          ∧ m.choices.length = n.choices.length
          ∧ m.choices.map Choice.target_id = n.choices.map Choice.target_id
          ∧ m.text = n.text ∧ m.npc = n.npc ∧ m.location = n.location
          ∧ m.emotion = n.emotion ∧ m.tags = n.tags ∧ m.gm_notes = n.gm_notes
          ∧ ({ story with nodes := story.nodes ++ [(new_id, m)] } : Story).start_node_id
              = story.start_node_id) := by
  constructor
  · intro h
    simp [duplicate_node, h]
  · intro n hn hfresh
    have hnone : dictGet story.nodes new_id = none := by
      cases hdg : dictGet story.nodes new_id with
      | none => rfl
      | some v => rw [dictContains, hdg] at hfresh; simp at hfresh
    refine ⟨⟨new_id, n.title ++ " (copy)", n.text, n.npc, n.location, n.emotion,
      n.tags, n.gm_notes,
      n.choices.map (fun c => ⟨c.text, c.target_id, c.tags, c.gate⟩)⟩,
      ?_, rfl, ?_, ?_, rfl, ?_, ?_, rfl, rfl, rfl, rfl, rfl, rfl, rfl⟩
    · simp only [duplicate_node, hn]
      rw [dictInsert_of_get_none _ _ _ hnone]
    · intro he
      rw [he, hn] at hnone
      exact Option.noConfusion hnone
    · intro kv hkv he
      have := dictGet_isSome_of_mem_key story.nodes kv hkv
      rw [he, hnone] at this
      simp at this
    · simp
    · simp

/-- Witness for C5 at a one-node story with a wired choice. -/
def c5Story : Story :=
  ⟨"S", "", [("a", ⟨"a", "A", "x", "", "", "", ["t"], "", [⟨"go", "z", [], ""⟩]⟩)],
   some "a"⟩

/-- Witness for C5: both conjuncts of `duplicate_node_spec` applied at a
concrete story (the `NotFound` arm at a missing id via a second application
is not needed — the single theorem instance covers both arms). -/
theorem duplicate_node_spec_witness :
    ((dictGet c5Story.nodes "missing" = none →
        duplicate_node "b" c5Story "missing" = .error .keyError)
     ∧ (∀ n, dictGet c5Story.nodes "missing" = some n →
         dictContains c5Story.nodes "b" = false →
         ∃ m, duplicate_node "b" c5Story "missing"
               = .ok ({ c5Story with nodes := c5Story.nodes ++ [("b", m)] }, "b")
           ∧ m.id = "b"
           ∧ "b" ≠ "missing"
           ∧ (∀ kv ∈ c5Story.nodes, kv.1 ≠ "b")
           ∧ m.title = n.title ++ " (copy)"
           ∧ m.choices.length = n.choices.length
           ∧ m.choices.map Choice.target_id = n.choices.map Choice.target_id
           ∧ m.text = n.text ∧ m.npc = n.npc ∧ m.location = n.location
           ∧ m.emotion = n.emotion ∧ m.tags = n.tags ∧ m.gm_notes = n.gm_notes
           ∧ ({ c5Story with nodes := c5Story.nodes ++ [("b", m)] } : Story).start_node_id
               = c5Story.start_node_id))
    ∧ duplicate_node "b" c5Story "a"
        = .ok (⟨"S", "",
            [("a", ⟨"a", "A", "x", "", "", "", ["t"], "", [⟨"go", "z", [], ""⟩]⟩),
             ("b", ⟨"b", "A (copy)", "x", "", "", "", ["t"], "", [⟨"go", "z", [], ""⟩]⟩)],
            some "a"⟩, "b") :=
  ⟨duplicate_node_spec c5Story "missing" "b", rfl⟩

/-! ## Playback lemmas -/

theorem mem_map_fst_iff_dictGet {α : Type} (d : List (String × α)) (k : String) :
    k ∈ d.map Prod.fst ↔ (dictGet d k).isSome := by
  induction d with
  | nil => simp [dictGet]
  | cons kv rest ih =>
    by_cases hk : kv.1 = k
    · simp [dictGet, hk]
    · simp [dictGet, hk, ih, Ne.symm hk]

theorem choose_history (story : Story) (ps ps' : Playback) (i : Nat)
    (h : choose story ps i = .ok ps') :
    ∃ t, ps'.playback_history = ps.playback_history ++ [t] := by
  cases hc : ps.playback_node_id with
  | none => simp [choose, hc] at h
  | some curr =>
    cases hn : dictGet story.nodes curr with
    | none => simp [choose, hc, hn] at h
    | some n =>
      cases hg : n.choices[i]? with
      | none => simp [choose, hc, hn, hg] at h
      | some ch =>
        simp only [choose, hc, hn, hg, Except.ok.injEq] at h
        exact ⟨ch.target_id, by rw [← h]⟩

theorem chooseMany_history (story : Story) (idxs : List Nat) :
    ∀ ps ps', chooseMany story ps idxs = .ok ps' →
      ∃ ts, ps'.playback_history = ps.playback_history ++ ts
        ∧ ts.length = idxs.length := by
  induction idxs with
  | nil =>
    intro ps ps' h
    simp only [chooseMany, Except.ok.injEq] at h
    exact ⟨[], by rw [← h]; simp, rfl⟩
  | cons i rest ih =>
    intro ps ps' h
    simp only [chooseMany] at h
    cases hc : choose story ps i with
    | error e => rw [hc] at h; simp at h
    | ok ps1 =>
      rw [hc] at h
      obtain ⟨t, ht⟩ := choose_history story ps ps1 i hc
      obtain ⟨ts, hts, hlen⟩ := ih ps1 ps' h
      exact ⟨t :: ts, by rw [hts, ht]; simp, by simp [hlen]⟩

theorem stepBackMany_pop (h : List String) (hne : h ≠ []) :
    ∀ (ts : List String) (x : Option String),
      (stepBackMany ts.length ⟨x, h ++ ts⟩).playback_history = h := by
  intro ts
  induction ts using List.reverseRecOn with
  | nil => intro x; simp [stepBackMany]
  | append_singleton ts t ih =>
    intro x
    have hlen : (ts ++ [t]).length = ts.length + 1 := by simp
    rw [hlen, stepBackMany]
    have h1 : 0 < h.length := List.length_pos.mpr hne
    have h2 : 1 < h.length + (ts.length + 1) := by omega
    have hsb : stepBack ⟨x, h ++ (ts ++ [t])⟩
        = ⟨((h ++ (ts ++ [t])).dropLast).getLast?, (h ++ (ts ++ [t])).dropLast⟩ := by
      simp [stepBack, h2]
    rw [hsb]
    have hdl : (h ++ (ts ++ [t])).dropLast = h ++ ts := by
      rw [← List.append_assoc]
      simp
    rw [hdl]
    exact ih _

/-! ## Claim C9 — playback back-navigation algebra -/

/-- C9: `StepBack` on a history of length 1 is the identity on the playback
state (same history, same current node); and from any playback state whose
history is a single entry, `k` successful `Choose` transitions followed by
`k` `StepBack` transitions restore the history to its original
single-element value. -/
theorem playback_back_algebra :
    (∀ ps : Playback, ps.playback_history.length = 1 → stepBack ps = ps)
    ∧ (∀ (story : Story) (ps ps' : Playback) (idxs : List Nat),
        ps.playback_history.length = 1 →
        chooseMany story ps idxs = .ok ps' →
        (stepBackMany idxs.length ps').playback_history = ps.playback_history) := by
  constructor
  · intro ps h1
    simp [stepBack, h1]
  · intro story ps ps' idxs hlen hok
    obtain ⟨ts, hts, hlents⟩ := chooseMany_history story idxs ps ps' hok
    have hne : ps.playback_history ≠ [] := by
      intro he; rw [he] at hlen; simp at hlen
    have hps' : ps' = ⟨ps'.playback_node_id, ps.playback_history ++ ts⟩ := by
      cases ps' with
      | mk a b => simpa using hts
    rw [hps', ← hlents]
    exact stepBackMany_pop ps.playback_history hne ts ps'.playback_node_id

/-- A two-node story for the playback witnesses. -/
def c9Story : Story :=
  ⟨"S", "",
   [("a", ⟨"a", "A", "", "", "", "", [], "", [⟨"go", "b", [], ""⟩]⟩),
    ("b", ⟨"b", "B", "", "", "", "", [], "", []⟩)],
   some "a"⟩

/-- Witness for C9: one `Choose` then one `StepBack` at a concrete story
restores the history `["a"]`; also `StepBack` alone is the identity there. -/
theorem playback_back_algebra_witness :
    stepBack ⟨some "a", ["a"]⟩ = ⟨some "a", ["a"]⟩
    ∧ chooseMany c9Story ⟨some "a", ["a"]⟩ [0] = .ok ⟨some "b", ["a", "b"]⟩
    ∧ (stepBackMany ([0] : List Nat).length ⟨some "b", ["a", "b"]⟩).playback_history
        = (⟨some "a", ["a"]⟩ : Playback).playback_history :=
  ⟨playback_back_algebra.1 ⟨some "a", ["a"]⟩ (by decide), rfl,
   playback_back_algebra.2 c9Story ⟨some "a", ["a"]⟩ ⟨some "b", ["a", "b"]⟩ [0]
     (by decide) rfl⟩

/-! ## Claim C6 — Choose on a dangling choice -/

/-- A story whose only node has a choice targeting a non-existent id. -/
def c6Story : Story :=
  ⟨"S", "", [("A", ⟨"A", "Alpha", "", "", "", "", [], "",
    [⟨"go", "ghost", [], ""⟩]⟩)], some "A"⟩

/-- C6 counterexample: choosing the dangling choice does move current to the
missing id `"ghost"` and appends it to history — but on the next render the
validation prefix of `tab_playback` (lines 1226–1230) *silently replaces*
the missing current node with the start node and resets the history, and
the "Current node missing." warning of line 1233 does not fire (third
component `false`).  The claim's assertion that the missing-current state is
surfaced as an explicit condition "rather than … silently replacing current
with a different node" is therefore false on the code. -/
theorem choose_dangling_silently_reset :
    choose c6Story ⟨some "A", ["A"]⟩ 0 = .ok ⟨some "ghost", ["A", "ghost"]⟩
    ∧ dictGet c6Story.nodes "ghost" = none
    ∧ playback_validate c6Story ⟨some "ghost", ["A", "ghost"]⟩
        = some (c6Story, ⟨some "A", ["A"]⟩, false)
    ∧ (some "A" : Option String) ≠ some "ghost" :=
  ⟨rfl, rfl, rfl, by decide⟩

/-- C6 (amended): `Choose` at a valid index appends the choice's
`target_id` to history and moves current there *whether or not the target
exists in the story* (no hypothesis on the target), and an index outside the
current node's choice list yields no transition (the spec's
`IndexOutOfRange`).  However the resulting "current node missing" state is
*not* surfaced: on the next render `tab_playback`'s validation silently
resets current to the start node with history `[start]`, and the explicit
"Current node missing." warning is unreachable — whenever the validation
prefix runs, its warning flag is `false`. -/
theorem choose_and_validate_spec :
    (∀ (story : Story) (ps : Playback) (i : Nat) (curr : String) (n : Node) (ch : Choice),
        ps.playback_node_id = some curr →
        dictGet story.nodes curr = some n →
        n.choices[i]? = some ch →
        choose story ps i
          = .ok ⟨some ch.target_id, ps.playback_history ++ [ch.target_id]⟩)
    ∧ (∀ (story : Story) (ps : Playback) (i : Nat) (curr : String) (n : Node),
        ps.playback_node_id = some curr →
        dictGet story.nodes curr = some n →
        n.choices.length ≤ i →
        choose story ps i = .error .indexError)
    ∧ (∀ (story story1 : Story) (ps ps1 : Playback) (warn : Bool),
        playback_validate story ps = some (story1, ps1, warn) →
        warn = false) := by
  refine ⟨?_, ?_, ?_⟩
  · intro story ps i curr n ch hc hn hg
    simp [choose, hc, hn, hg]
  · intro story ps i curr n hc hn hlen
    have hg : n.choices[i]? = none := by
      rw [List.getElem?_eq_none_iff]
      exact hlen
    simp [choose, hc, hn, hg]
  · intro story story1 ps ps1 warn h
    obtain ⟨st, sd, snodes, sstart⟩ := story
    cases snodes with
    | nil => simp [playback_validate] at h
    | cons kv rest =>
      simp only [playback_validate] at h
      cases sstart with
      | none =>
        simp only [Bool.false_eq_true, if_false] at h
        cases hpn : ps.playback_node_id with
        | none =>
          simp only [hpn, Option.some.injEq, Prod.mk.injEq] at h
          obtain ⟨-, -, h3⟩ := h
          rw [← h3]
          simp [dictGet]
        | some c =>
          by_cases hcond : (c = "" ∨ (dictGet (kv :: rest) c).isNone = true)
          · simp only [hpn, hcond, if_true, Option.some.injEq, Prod.mk.injEq] at h
            obtain ⟨-, -, h3⟩ := h
            rw [← h3]
            simp [dictGet]
          · simp only [hpn, hcond, if_false, Option.some.injEq, Prod.mk.injEq] at h
            obtain ⟨-, h2, h3⟩ := h
            rw [← h3]
            push_neg at hcond
            cases hb : (dictGet (kv :: rest) c).isNone with
            | false => rfl
            | true => exact absurd hb hcond.2
      | some s =>
        by_cases hok : ((kv :: rest).map Prod.fst).contains s = true
        · have hmem : s ∈ (kv :: rest).map Prod.fst := by
            simpa using hok
          have hsome : (dictGet (kv :: rest) s).isSome :=
            (mem_map_fst_iff_dictGet (kv :: rest) s).mp hmem
          simp only [hok, if_true, Option.getD_some] at h
          cases hpn : ps.playback_node_id with
          | none =>
            simp only [hpn, Option.some.injEq, Prod.mk.injEq] at h
            obtain ⟨-, -, h3⟩ := h
            rw [← h3]
            simpa using hsome
          | some c =>
            by_cases hcond : (c = "" ∨ (dictGet (kv :: rest) c).isNone = true)
            · simp only [hpn, hcond, if_true, Option.some.injEq, Prod.mk.injEq] at h
              obtain ⟨-, -, h3⟩ := h
              rw [← h3]
              simpa using hsome
            · simp only [hpn, hcond, if_false, Option.some.injEq, Prod.mk.injEq] at h
              obtain ⟨-, h2, h3⟩ := h
              rw [← h3]
              push_neg at hcond
              cases hb : (dictGet (kv :: rest) c).isNone with
              | false => rfl
              | true => exact absurd hb hcond.2
        · have hok' : ((kv :: rest).map Prod.fst).contains s = false := by
            simpa using hok
          simp only [hok', Bool.false_eq_true, if_false] at h
          cases hpn : ps.playback_node_id with
          | none =>
            simp only [hpn, Option.some.injEq, Prod.mk.injEq] at h
            obtain ⟨-, -, h3⟩ := h
            rw [← h3]
            simp [dictGet]
          | some c =>
            by_cases hcond : (c = "" ∨ (dictGet (kv :: rest) c).isNone = true)
            · simp only [hpn, hcond, if_true, Option.some.injEq, Prod.mk.injEq] at h
              obtain ⟨-, -, h3⟩ := h
              rw [← h3]
              simp [dictGet]
            · simp only [hpn, hcond, if_false, Option.some.injEq, Prod.mk.injEq] at h
              obtain ⟨-, h2, h3⟩ := h
              rw [← h3]
              push_neg at hcond
              cases hb : (dictGet (kv :: rest) c).isNone with
              | false => rfl
              | true => exact absurd hb hcond.2

/-- Witness for C6 (amended): the three arms applied at `c6Story` — a
dangling `Choose` transition, an out-of-range index, and the
always-false warning flag of a concrete validation run. -/
theorem choose_and_validate_spec_witness :
    choose c6Story ⟨some "A", ["A"]⟩ 0 = .ok ⟨some "ghost", ["A", "ghost"]⟩
    ∧ choose c6Story ⟨some "A", ["A"]⟩ 5 = .error .indexError
    ∧ (false : Bool) = false :=
  ⟨choose_and_validate_spec.1 c6Story ⟨some "A", ["A"]⟩ 0 "A"
      ⟨"A", "Alpha", "", "", "", "", [], "", [⟨"go", "ghost", [], ""⟩]⟩
      ⟨"go", "ghost", [], ""⟩ rfl rfl rfl,
   choose_and_validate_spec.2.1 c6Story ⟨some "A", ["A"]⟩ 5 "A"
      ⟨"A", "Alpha", "", "", "", "", [], "", [⟨"go", "ghost", [], ""⟩]⟩
      rfl rfl (by decide),
   choose_and_validate_spec.2.2 c6Story c6Story ⟨some "ghost", ["A", "ghost"]⟩
      ⟨some "A", ["A"]⟩ false rfl⟩

/-! ## Ingestion lemmas -/

theorem asObj_ok {nd : Json} {kvs : List (String × Json)}
    (h : asObj nd = .ok kvs) : nd = .obj kvs := by
  cases nd <;> simp_all [asObj]

theorem asStr_ok {j : Json} {s : String} (h : asStr j = .ok s) : j = .str s := by
  cases j <;> simp_all [asStr]

/-- The list of normalised titles of a batch, when every proto-node's title
extraction succeeds. -/
def protoTitles : List Json → Option (List String)
  | [] => some []
  | nd :: rest =>
    match protoTitle nd with
    | none => none
    | some t =>
      match protoTitles rest with
      | none => none
      | some ts => some (t :: ts)

theorem protoTitles_length :
    ∀ (l : List Json) (ts : List String), protoTitles l = some ts →
      ts.length = l.length := by
  intro l
  induction l with
  | nil => intro ts h; simp [protoTitles] at h; simp [← h]
  | cons nd rest ih =>
    intro ts h
    simp only [protoTitles] at h
    cases ha : protoTitle nd with
    | none => simp [ha] at h
    | some t =>
      cases hrest : protoTitles rest with
      | none => simp [ha, hrest] at h
      | some ts' =>
        simp only [ha, hrest, Option.some.injEq] at h
        rw [← h]
        simp [ih ts' hrest]

/-- A successful `createOne` creates under the id handed to it, records
exactly `protoTitle` of the proto-node in the title map, and inserts a node
with that id, the `add_node`-normalised title, and no choices. -/
theorem createOne_spec (story : Story) (nid : String) (nd : Json)
    (r : Story × String × String) (h : createOne story nid nd = .ok r) :
    protoTitle nd = some r.2.1 ∧ r.2.2 = nid
    ∧ (dictGet r.1.nodes nid).map Node.id = some nid
    ∧ (dictGet r.1.nodes nid).map Node.title
        = some (if pyStrip r.2.1 = "" then "(untitled)" else pyStrip r.2.1)
    ∧ (dictGet r.1.nodes nid).map Node.choices = some [] := by
  simp only [createOne] at h
  cases h1 : asObj nd with
  | error e => simp [h1] at h
  | ok kvs =>
  simp only [h1] at h
  cases h2 : asStr (jGetD kvs "title" (.str "Untitled")) with
  | error e => simp [h2] at h
  | ok titleRaw =>
  simp only [h2] at h
  cases h3 : asStr (jGetD kvs "text" (.str "")) with
  | error e => simp [h3] at h
  | ok text =>
  simp only [h3] at h
  cases h4 : asStr (jGetD kvs "npc" (.str "")) with
  | error e => simp [h4] at h
  | ok npc =>
  simp only [h4] at h
  cases h5 : asStr (jGetD kvs "location" (.str "")) with
  | error e => simp [h5] at h
  | ok location =>
  simp only [h5] at h
  cases h6 : asStr (jGetD kvs "emotion" (.str "")) with
  | error e => simp [h6] at h
  | ok emotion =>
  simp only [h6] at h
  cases h7 : pyIterStrs (if pyTruthy (jGetD kvs "tags" (.arr []))
      then jGetD kvs "tags" (.arr []) else .arr []) with
  | error e => simp [h7] at h
  | ok tags =>
  simp only [h7] at h
  cases h8 : asStr (jGetD kvs "gm_notes" (.str "")) with
  | error e => simp [h8] at h
  | ok gm =>
  simp only [h8, Except.ok.injEq] at h
  rw [asObj_ok h1]
  subst h
  refine ⟨by simp [protoTitle, asStr_ok h2], by simp [add_node], ?_, ?_, ?_⟩ <;>
    simp [add_node, apply_ite Story.nodes, dictGet_insert_self]

/-- The title-to-id map a successful first pass produces is the pure fold
`ingestTitleMap` of the proto-titles over the id supply. -/
theorem firstPass_t2i (supply : Nat → String) :
    ∀ (nds : List Json) (story : Story) (t2i : List (String × String)) (i : Nat)
      (r : Story × List (String × String)),
      firstPass supply nds story t2i i = .ok r →
      ∀ titles, protoTitles nds = some titles →
        r.2 = ingestTitleMap supply titles i t2i := by
  intro nds
  induction nds with
  | nil =>
    intro story t2i i r h titles ht
    simp only [firstPass, Except.ok.injEq] at h
    simp only [protoTitles, Option.some.injEq] at ht
    rw [← h, ← ht]
    rfl
  | cons nd rest ih =>
    intro story t2i i r h titles ht
    simp only [firstPass] at h
    cases hc : createOne story (supply i) nd with
    | error e => simp [hc] at h
    | ok cr =>
      simp only [hc] at h
      obtain ⟨hpt, hnid, -⟩ := createOne_spec story (supply i) nd cr hc
      simp only [protoTitles, hpt] at ht
      cases hrest : protoTitles rest with
      | none => simp [hrest] at ht
      | some ts =>
        simp only [hrest, Option.some.injEq] at ht
        rw [← ht]
        rw [hnid] at h
        simpa [ingestTitleMap] using ih cr.1 (dictInsert t2i cr.2.1 (supply i)) (i + 1) r h ts hrest

/-- Values of the title map when all titles are distinct and fresh for the
accumulator: the minted ids in creation order. -/
theorem ingestTitleMap_values (supply : Nat → String) :
    ∀ (titles : List String) (i : Nat) (m : List (String × String)),
      titles.Nodup → (∀ t ∈ titles, dictGet m t = none) →
      (ingestTitleMap supply titles i m).map Prod.snd
        = m.map Prod.snd ++ supplySeg supply i titles.length := by
  intro titles
  induction titles with
  | nil => intro i m _ _; simp [ingestTitleMap, supplySeg]
  | cons t ts ih =>
    intro i m hnd hfr
    simp only [ingestTitleMap, List.length_cons, supplySeg]
    rw [dictInsert_of_get_none m t (supply i) (hfr t (by simp))]
    rw [ih (i + 1) (m ++ [(t, supply i)]) (List.nodup_cons.mp hnd).2 ?_]
    · simp
    · intro t' ht'
      rw [dictGet_append]
      rw [hfr t' (by simp [ht'])]
      have hne : t' ≠ t := by
        rintro rfl
        exact (List.nodup_cons.mp hnd).1 ht'
      simp [dictGet, Ne.symm hne]

/-! ## Claim C8 — subgraph ingestion return value -/

/-- A batch of two proto-nodes sharing the title "A". -/
def c8Batch : Json :=
  .obj [("nodes", .arr [.obj [("title", .str "A")], .obj [("title", .str "A")]])]

/-- A deterministic two-id supply standing for `_new_id()`. -/
def c8Supply : Nat → String := fun i => if i = 0 then "id1" else "id2"

/-- C8 counterexample: a valid two-element batch whose proto-nodes share a
title creates *two* nodes (`id1`, `id2` both end up in the story), yet the
returned list is `list(title_to_id.values()) = ["id2"]` — only the later
duplicate's id, not one id per proto-node in creation order. -/
theorem apply_ai_duplicate_title_drops_id :
    (apply_ai_nodes_to_story ⟨"Untitled Story", "", [], none⟩ c8Batch c8Supply
        none none).map (fun r => (r.1.nodes.map Prod.fst, r.2))
      = .ok (["id1", "id2"], ["id2"])
    ∧ (["id2"] : List String) ≠ ["id1", "id2"] :=
  ⟨rfl, by decide⟩

/-- C8 (amended): a successful ingestion run returns
`list(title_to_id.values())` — one id per *distinct* normalised title, the
later proto-node's id winning a duplicated title; in particular when the
batch's normalised titles are pairwise distinct the result is exactly the
list of all newly created ids in creation order (`supply 0 … supply (n-1)`,
one per proto-node). -/
theorem apply_ai_return_ids (story : Story) (data : Json) (supply : Nat → String)
    (nds : List Json) (titles : List String) (res : Story × List String)
    (hn : jsonNodesList data = some nds)
    (ht : protoTitles nds = some titles)
    (hok : apply_ai_nodes_to_story story data supply none none = .ok res) :
    res.2 = (ingestTitleMap supply titles 0 []).map Prod.snd
    ∧ (titles.Nodup → res.2 = supplySeg supply 0 nds.length) := by
  cases data with
  | obj dk =>
    simp only [jsonNodesList] at hn
    cases hgn : jGetD dk "nodes" (.arr []) <;> rw [hgn] at hn <;> simp at hn
    case arr xs =>
    subst hn
    simp only [apply_ai_nodes_to_story, asObj, hgn] at hok
    cases hemp : xs.isEmpty with
    | true => simp [hemp] at hok
    | false =>
    simp only [hemp, Bool.false_eq_true, if_false] at hok
    cases hfp : firstPass supply xs story [] 0 with
    | error e => simp [hfp] at hok
    | ok fp =>
    obtain ⟨story1, t2i⟩ := fp
    simp only [hfp] at hok
    cases hsp : secondPass xs story1 t2i with
    | error e => simp [hsp] at hok
    | ok story2 =>
    simp only [hsp, Except.ok.injEq] at hok
    have hr2 : res.2 = t2i.map Prod.snd := by rw [← hok]
    have hmap := firstPass_t2i supply xs story [] 0 (story1, t2i) hfp titles ht
    simp only at hmap
    constructor
    · rw [hr2, hmap]
    · intro hnodup
      rw [hr2, hmap]
      rw [ingestTitleMap_values supply titles 0 [] hnodup (fun t _ => rfl)]
      rw [protoTitles_length xs titles ht]
      simp
  | null => simp [jsonNodesList] at hn
  | bool b => simp [jsonNodesList] at hn
  | num n => simp [jsonNodesList] at hn
  | str s => simp [jsonNodesList] at hn
  | arr xs => simp [jsonNodesList] at hn

/-- Witness for C8 (amended) at a distinct-title batch: the run returns both
created ids in creation order. -/
def c8wBatch : Json :=
  .obj [("nodes", .arr [.obj [("title", .str "A")], .obj [("title", .str "B")]])]

/-- Witness for C8 (amended). -/
theorem apply_ai_return_ids_witness :
    ["id1", "id2"] = (ingestTitleMap c8Supply ["A", "B"] 0 []).map Prod.snd
    ∧ ((["A", "B"] : List String).Nodup →
        ["id1", "id2"] = supplySeg c8Supply 0
          ([Json.obj [("title", Json.str "A")],
            Json.obj [("title", Json.str "B")]] : List Json).length) :=
  apply_ai_return_ids ⟨"Untitled Story", "", [], none⟩ c8wBatch c8Supply
    [Json.obj [("title", Json.str "A")], Json.obj [("title", Json.str "B")]]
    ["A", "B"]
    (⟨"Untitled Story", "",
      [("id1", ⟨"id1", "A", "", "", "", "", [], "", []⟩),
       ("id2", ⟨"id2", "B", "", "", "", "", [], "", []⟩)], some "id1"⟩,
     ["id1", "id2"])
    rfl rfl rfl

/-! ## Claim C10 — proto-nodes without a "title" key -/

theorem mem_dictInsert {α : Type} (d : List (String × α)) (k : String) (v : α) :
    ∀ kv ∈ dictInsert d k v, kv ∈ d ∨ kv = (k, v) := by
  induction d with
  | nil => intro kv h; simp [dictInsert] at h; simp [h]
  | cons kv' rest ih =>
    intro kv h
    by_cases hk : kv'.1 = k
    · simp only [dictInsert, hk, if_true] at h
      rcases List.mem_cons.mp h with he | hm
      · exact Or.inr he
      · exact Or.inl (List.mem_cons_of_mem _ hm)
    · simp only [dictInsert, hk, if_false] at h
      rcases List.mem_cons.mp h with he | hm
      · exact Or.inl (he ▸ List.mem_cons_self _ _)
      · rcases ih kv hm with h1 | h2
        · exact Or.inl (List.mem_cons_of_mem _ h1)
        · exact Or.inr h2

/-- Every title the first pass records is non-empty: the source normalises
`nd.get("title", "Untitled").strip() or "Untitled"`. -/
theorem protoTitle_ne_empty (nd : Json) (t : String)
    (h : protoTitle nd = some t) : t ≠ "" := by
  cases nd <;> simp [protoTitle] at h
  case obj kvs =>
  cases hg : jGetD kvs "title" (.str "Untitled") <;> rw [hg] at h <;> simp at h
  case str s =>
  by_cases hs : pyStrip s = ""
  · rw [← h]
    simp [hs]
  · rw [← h]
    simp [hs]

/-- The C10 batch: a proto-node with no "title" key but with a choice
definition targeting "B", followed by a proto-node titled "B". -/
def c10Batch : Json :=
  .obj [("nodes", .arr
    [.obj [("choices", .arr [.obj [("text", .str "go"), ("target_title", .str "B")]])],
     .obj [("title", .str "B")]])]

/-- A deterministic two-id supply for the C10 run. -/
def c10Supply : Nat → String := fun i => if i = 0 then "n1" else "n2"

/-- C10: a proto-node whose "title" key is absent is still created in the
first pass under the default title "Untitled" (first conjunct), every key
the first pass records is non-empty (second conjunct), the second pass reads
the missing title with an empty-string default, finds no entry for "" and
skips the proto-node entirely — `wireOne` is the identity on the story
(third conjunct) — and on a concrete run the title-less proto-node ends with
*zero* choices even though its definition contained one: its choice
definitions are silently discarded (fourth conjunct). -/
theorem ingest_missing_title_discarded :
    (∀ (story : Story) (nid : String) (kvs : List (String × Json))
        (r : Story × String × String),
        dictGet kvs "title" = none →
        createOne story nid (.obj kvs) = .ok r →
        r.2.1 = "Untitled"
        ∧ (dictGet r.1.nodes nid).map Node.title = some "Untitled"
        ∧ (dictGet r.1.nodes nid).map Node.choices = some [])
    ∧ (∀ (supply : Nat → String) (nds : List Json) (story : Story)
        (t2i : List (String × String)) (i : Nat)
        (r : Story × List (String × String)),
        firstPass supply nds story t2i i = .ok r →
        (∀ kv ∈ t2i, kv.1 ≠ "") →
        ∀ kv ∈ r.2, kv.1 ≠ "")
    ∧ (∀ (story : Story) (t2i : List (String × String)) (kvs : List (String × Json)),
        dictGet t2i "" = none →
        dictGet kvs "title" = none →
        wireOne story t2i (.obj kvs) = .ok story)
    ∧ (apply_ai_nodes_to_story ⟨"Untitled Story", "", [], none⟩ c10Batch c10Supply
          none none).map
        (fun r => (r.1.nodes.map (fun kn => (kn.1, kn.2.title, kn.2.choices.length)),
                   r.2))
        = .ok ([("n1", "Untitled", 0), ("n2", "B", 0)], ["n1", "n2"]) := by
  refine ⟨?_, ?_, ?_, rfl⟩
  · intro story nid kvs r hti hc
    obtain ⟨hpt, -, -, htitle, hchoices⟩ := createOne_spec story nid (.obj kvs) r hc
    have hu : r.2.1 = "Untitled" := by
      simp [protoTitle, jGetD, hti] at hpt
      rw [← hpt]
      decide
    refine ⟨hu, ?_, hchoices⟩
    rw [htitle, hu]
    decide
  · intro supply nds
    induction nds with
    | nil =>
      intro story t2i i r h hfr
      simp only [firstPass, Except.ok.injEq] at h
      rw [← h]
      exact hfr
    | cons nd rest ih =>
      intro story t2i i r h hfr
      simp only [firstPass] at h
      cases hc : createOne story (supply i) nd with
      | error e => simp [hc] at h
      | ok cr =>
        simp only [hc] at h
        obtain ⟨hpt, -, -⟩ := createOne_spec story (supply i) nd cr hc
        refine ih cr.1 (dictInsert t2i cr.2.1 cr.2.2) (i + 1) r h ?_
        intro kv hkv
        rcases mem_dictInsert t2i cr.2.1 cr.2.2 kv hkv with hm | he
        · exact hfr kv hm
        · rw [he]
          exact protoTitle_ne_empty nd cr.2.1 hpt
  · intro story t2i kvs hmap hti
    simp [wireOne, asObj, jGetD, hti, asStr, show pyStrip "" = "" from rfl, hmap]

/-- The story produced by the C10 run's first pass. -/
def c10FirstPassStory : Story :=
  ⟨"Untitled Story", "",
   [("n1", ⟨"n1", "Untitled", "", "", "", "", [], "", []⟩),
    ("n2", ⟨"n2", "B", "", "", "", "", [], "", []⟩)], some "n1"⟩

/-- Witness for C10: the three hypothesis-bearing conjuncts applied at the
concrete C10 batch. -/
theorem ingest_missing_title_discarded_witness :
    ("Untitled" = "Untitled"
     ∧ (dictGet (⟨"Untitled Story", "",
          [("n1", ⟨"n1", "Untitled", "", "", "", "", [], "", []⟩)],
          some "n1"⟩ : Story).nodes "n1").map Node.title = some "Untitled"
     ∧ (dictGet (⟨"Untitled Story", "",
          [("n1", ⟨"n1", "Untitled", "", "", "", "", [], "", []⟩)],
          some "n1"⟩ : Story).nodes "n1").map Node.choices = some [])
    ∧ (∀ kv ∈ ([("Untitled", "n1"), ("B", "n2")] : List (String × String)), kv.1 ≠ "")
    ∧ wireOne ⟨"Untitled Story", "", [], none⟩ [("Untitled", "n1")]
        (.obj [("choices", .arr
          [.obj [("text", .str "go"), ("target_title", .str "B")]])])
        = .ok ⟨"Untitled Story", "", [], none⟩ :=
  ⟨ingest_missing_title_discarded.1 ⟨"Untitled Story", "", [], none⟩ "n1"
      [("choices", .arr [.obj [("text", .str "go"), ("target_title", .str "B")]])]
      (⟨"Untitled Story", "",
        [("n1", ⟨"n1", "Untitled", "", "", "", "", [], "", []⟩)], some "n1"⟩,
       "Untitled", "n1")
      rfl rfl,
   ingest_missing_title_discarded.2.1 c10Supply
      [.obj [("choices", .arr [.obj [("text", .str "go"), ("target_title", .str "B")]])],
       .obj [("title", .str "B")]]
      ⟨"Untitled Story", "", [], none⟩ [] 0
      (c10FirstPassStory, [("Untitled", "n1"), ("B", "n2")])
      rfl (by simp),
   ingest_missing_title_discarded.2.2.1 ⟨"Untitled Story", "", [], none⟩
      [("Untitled", "n1")]
      [("choices", .arr [.obj [("text", .str "go"), ("target_title", .str "B")]])]
      (by decide) rfl⟩

/-! ## Claim C4 — decode tolerance -/

theorem dictGet_append_single_ne {α : Type} (d : List (String × α)) (k f : String)
    (v : α) (h : k ≠ f) : dictGet (d ++ [(k, v)]) f = dictGet d f := by
  rw [dictGet_append]
  cases hd : dictGet d f with
  | some w => rfl
  | none => simp [dictGet, h]

/-- C4: decoding a node entry substitutes the documented defaults for every
missing optional field (the dict key for `id`, "(untitled)" for `title`,
empty string / empty list otherwise); when the `choices` field is a JSON
array the decode succeeds and keeps exactly the entries that are objects,
silently skipping the rest; a field with an unknown key is ignored — adding
it to a node entry leaves the decode result unchanged; and the concrete
document `{"nodes": {"x": {"title": "T"}}}` decodes, without raising, to the
single node id "x", title "T", empty text, empty tags, empty choices. -/
theorem decode_tolerance :
    (∀ (nid : String) (kvs : List (String × Json)) (dn : DNode),
        node_from_json nid (.obj kvs) = .ok dn →
        (dictGet kvs "id" = none → dn.id = .str nid)
        ∧ (dictGet kvs "title" = none → dn.title = .str "(untitled)")
        ∧ (dictGet kvs "text" = none → dn.text = .str "")
        ∧ (dictGet kvs "npc" = none → dn.npc = .str "")
        ∧ (dictGet kvs "location" = none → dn.location = .str "")
        ∧ (dictGet kvs "emotion" = none → dn.emotion = .str "")
        ∧ (dictGet kvs "tags" = none → dn.tags = .arr [])
        ∧ (dictGet kvs "gm_notes" = none → dn.gm_notes = .str "")
        ∧ (dictGet kvs "choices" = none → dn.choices = []))
    ∧ (∀ (nid : String) (kvs : List (String × Json)) (cs : List Json),
        dictGet kvs "choices" = some (.arr cs) →
        ∃ dn, node_from_json nid (.obj kvs) = .ok dn
          ∧ dn.choices = cs.filterMap (fun c =>
              match c with
              | .obj ckvs => some (choice_from_json ckvs)
              | _ => none))
    ∧ (∀ (kvs : List (String × Json)) (k : String) (v : Json),
        k ∉ (["id", "title", "text", "npc", "location", "emotion", "tags",
              "gm_notes", "choices"] : List String) →
        ∀ nid, node_from_json nid (.obj (kvs ++ [(k, v)]))
          = node_from_json nid (.obj kvs))
    ∧ story_from_json (.obj [("nodes", .obj [("x", .obj [("title", .str "T")])])])
        = .ok ⟨.str "Untitled Story", .str "",
               [("x", ⟨.str "x", .str "T", .str "", .str "", .str "", .str "",
                       .arr [], .str "", []⟩)], .null⟩ := by
  refine ⟨?_, ?_, ?_, rfl⟩
  · intro nid kvs dn h
    simp only [node_from_json] at h
    cases hp : pyIter (jGetD kvs "choices" (.arr [])) with
    | error e => simp [hp] at h
    | ok items =>
      simp only [hp, Except.ok.injEq] at h
      subst h
      refine ⟨fun hm => by simp [jGetD, hm], fun hm => by simp [jGetD, hm],
        fun hm => by simp [jGetD, hm], fun hm => by simp [jGetD, hm],
        fun hm => by simp [jGetD, hm], fun hm => by simp [jGetD, hm],
        fun hm => by simp [jGetD, hm], fun hm => by simp [jGetD, hm], ?_⟩
      intro hm
      rw [jGetD, hm] at hp
      have hi : items = [] := by simpa [pyIter, eq_comm] using hp
      simp [hi]
  · intro nid kvs cs hc
    have hp : pyIter (jGetD kvs "choices" (.arr [])) = .ok cs := by
      simp [jGetD, hc, pyIter]
    refine ⟨⟨jGetD kvs "id" (.str nid), jGetD kvs "title" (.str "(untitled)"),
      jGetD kvs "text" (.str ""), jGetD kvs "npc" (.str ""),
      jGetD kvs "location" (.str ""), jGetD kvs "emotion" (.str ""),
      jGetD kvs "tags" (.arr []), jGetD kvs "gm_notes" (.str ""),
      cs.filterMap (fun c =>
        match c with
        | .obj ckvs => some (choice_from_json ckvs)
        | _ => none)⟩, ?_, rfl⟩
    simp only [node_from_json, hp]
  · intro kvs k v hk nid
    simp only [List.mem_cons, List.not_mem_nil, or_false, not_or] at hk
    obtain ⟨h1, h2, h3, h4, h5, h6, h7, h8, h9⟩ := hk
    have hg : ∀ (f : String) (d : Json), k ≠ f →
        jGetD (kvs ++ [(k, v)]) f d = jGetD kvs f d := by
      intro f d hf
      rw [jGetD, jGetD, dictGet_append_single_ne kvs k f v hf]
    simp only [node_from_json]
    rw [hg "choices" (.arr []) h9, hg "id" (.str nid) h1,
      hg "title" (.str "(untitled)") h2, hg "text" (.str "") h3,
      hg "npc" (.str "") h4, hg "location" (.str "") h5,
      hg "emotion" (.str "") h6, hg "tags" (.arr []) h7,
      hg "gm_notes" (.str "") h8]

/-- Witness for C4: the three hypothesis-bearing conjuncts applied at
concrete node entries — the claim's scenario entry `{"title": "T"}`, a
choices array holding one object and one non-object entry, and an unknown
extra field. -/
theorem decode_tolerance_witness :
    ((dictGet [("title", Json.str "T")] "id" = none → Json.str "x" = .str "x")
     ∧ (dictGet [("title", Json.str "T")] "title" = none →
         Json.str "T" = .str "(untitled)")
     ∧ (dictGet [("title", Json.str "T")] "text" = none → Json.str "" = .str "")
     ∧ (dictGet [("title", Json.str "T")] "npc" = none → Json.str "" = .str "")
     ∧ (dictGet [("title", Json.str "T")] "location" = none → Json.str "" = .str "")
     ∧ (dictGet [("title", Json.str "T")] "emotion" = none → Json.str "" = .str "")
     ∧ (dictGet [("title", Json.str "T")] "tags" = none → Json.arr [] = .arr [])
     ∧ (dictGet [("title", Json.str "T")] "gm_notes" = none → Json.str "" = .str "")
     ∧ (dictGet [("title", Json.str "T")] "choices" = none →
         ([] : List DChoice) = []))
    ∧ (∃ dn, node_from_json "y"
          (.obj [("choices", .arr [.obj [("text", .str "c")], .str "bad"])])
          = .ok dn
        ∧ dn.choices = ([.obj [("text", .str "c")], .str "bad"] :
              List Json).filterMap (fun c =>
            match c with
            | .obj ckvs => some (choice_from_json ckvs)
            | _ => none))
    ∧ node_from_json "x" (.obj ([("title", Json.str "T")] ++ [("extra", Json.null)]))
        = node_from_json "x" (.obj [("title", Json.str "T")]) :=
  ⟨decode_tolerance.1 "x" [("title", Json.str "T")]
      ⟨.str "x", .str "T", .str "", .str "", .str "", .str "", .arr [], .str "", []⟩
      rfl,
   decode_tolerance.2.1 "y" [("choices", .arr [.obj [("text", .str "c")], .str "bad"])]
      [.obj [("text", .str "c")], .str "bad"] rfl,
   decode_tolerance.2.2.1 [("title", Json.str "T")] "extra" Json.null (by decide) "x"⟩

/-! ## Claim C7 — canonical document shape of Encode -/

/-- The key list of a JSON object (empty for non-objects). -/
def jKeys : Json → List String
  | .obj kvs => kvs.map Prod.fst
  | _ => []

/-- The field list of a JSON object (empty for non-objects). -/
def jFields : Json → List (String × Json)
  | .obj kvs => kvs
  | _ => []

/-- C7: the encoded document is an object with exactly the keys `title`,
`description`, `nodes`, `start_node_id` (the spec renders the source's
snake_case JSON keys in camelCase — `startNodeId`, `gmNotes`, `targetId` —
as it does for every identifier of the source); `nodes` is an object keyed
by the story's node ids whose values are the node documents; every node
document has exactly the keys
`id, title, text, npc, location, emotion, tags, gm_notes, choices`, its
`choices` key holding the array of choice documents; and every choice
document has exactly the keys `text, target_id, tags, gate`. -/
theorem encode_document_shape (S : Story) :
    jKeys (story_to_json S) = ["title", "description", "nodes", "start_node_id"]
    ∧ jGetD (jFields (story_to_json S)) "nodes" (.arr [])
        = .obj (S.nodes.map (fun kn => (kn.1, node_to_json kn.2)))
    ∧ jKeys (jGetD (jFields (story_to_json S)) "nodes" (.arr []))
        = S.nodes.map Prod.fst
    ∧ (∀ n : Node, jKeys (node_to_json n)
        = ["id", "title", "text", "npc", "location", "emotion", "tags",
           "gm_notes", "choices"])
    ∧ (∀ n : Node, jGetD (jFields (node_to_json n)) "choices" (.arr [])
        = .arr (n.choices.map choice_to_json))
    ∧ (∀ c : Choice, jKeys (choice_to_json c)
        = ["text", "target_id", "tags", "gate"]) := by
  refine ⟨rfl, ?_, ?_, fun n => rfl, fun n => ?_, fun c => rfl⟩
  · simp [story_to_json, jFields, jGetD, dictGet]
  · simp [story_to_json, jFields, jGetD, dictGet, jKeys]
  · simp [node_to_json, jFields, jGetD, dictGet]
